import Mathlib

/-!
Verification of the Dropbox MCP tool layer (`src/main.py`).

The tools in `main.py` are thin wrappers around the Dropbox SDK client `dbx`.
Each tool is embedded as a pure Lean function; every remote call the Python
code makes through `dbx` (upload, download, move, create-folder, search,
shared-link, account-info) is modelled by an oracle argument of the Lean
function, and the list of remote calls a tool issues is returned alongside its
result so that "no remote call was attempted" style properties can be stated.

Python exceptions that escape a tool uncaught are modelled by the
`Except.error` side of the tool's return type; dictionaries a tool returns
(including the `error: message` failure shape) live on the `Except.ok` side.
Strings are modelled by `String`, datetimes by an instant on one common
scale together with Python's aware/naive distinction (the ISO-8601 parse in
the share-link tool is order-preserving on that scale), and byte contents
by `String`.
-/

namespace DropboxMCP

/-! ### Python string primitives used by `main.py` -/

/-- Python `s.endswith(suffixStr)`. -/
def pyEndsWith (s suffixStr : String) : Bool :=
  suffixStr.data.isSuffixOf s.data

/-- Python `s.startswith(pre)`. -/
def pyStartsWith (s pre : String) : Bool :=
  pre.data.isPrefixOf s.data

/-- Python `s.rstrip("/")`: remove every trailing slash. -/
def pyRstripSlash (s : String) : String :=
  ⟨(s.data.reverse.dropWhile (fun c => c == '/')).reverse⟩

/-- Python `s.split("/")`, at the character level. -/
def splitOnSlashChars : List Char → List (List Char)
  | [] => [[]]
  | c :: cs =>
    if c == '/' then [] :: splitOnSlashChars cs
    else
      match splitOnSlashChars cs with
      | [] => [[c]]
      | h :: t => (c :: h) :: t

/-- Python `s.split("/")`. -/
def pySplitSlash (s : String) : List String :=
  (splitOnSlashChars s.data).map (fun l => ⟨l⟩)

/-- Python truthiness of an optional string (`None` and `""` are falsy). -/
def optTruthy : Option String → Bool
  | none => false
  | some s => s != ""

/-! ### Data model -/

/-- The `dropbox.files.WriteMode` tags used by the tools
(spec §3 WriteMode: enum over add / overwrite / update). -/
inductive WriteMode where
  | add
  | overwrite
  | update
  deriving DecidableEq

/-- The SDK union constructor `dropbox.files.WriteMode(tag)`: constructing it
from a tag string raises for a tag outside the union (modelled for the three
void-or-valid tags the spec admits; any other string raises). -/
def WriteMode.ofTag (tag : String) : Except String WriteMode :=
  if tag = "add" then .ok .add
  else if tag = "overwrite" then .ok .overwrite
  else if tag = "update" then .ok .update
  else .error ("Invalid WriteMode tag: " ++ tag)

/-- Arguments of one `dbx.files_upload` call. `mode = none` means the `mode`
argument was omitted or passed as `None`, so the provider default applies. -/
structure UploadCall where
  content : String
  path : String
  mode : Option WriteMode
  autorename : Bool
  mute : Bool
  strict_conflict : Bool
  client_modified : Option String
  deriving DecidableEq

/-- Arguments of one `dbx.files_create_folder_v2` call. -/
structure FolderCall where
  path : String
  autorename : Bool
  deriving DecidableEq

/-- Arguments of one `dbx.files_move_v2` call. -/
structure MoveCall where
  from_path : String
  to_path : String
  autorename : Bool
  allow_ownership_transfer : Bool
  deriving DecidableEq

/-- Result dictionary shape shared by the create tools: either the
`status: success, message, path` dictionary or the `error: message`
dictionary. -/
inductive ToolResult where
  | success (message : String) (path : String)
  | err (msg : String)
  deriving DecidableEq

/-! ### Path normalization (`create_text_file`, `create_folder`,
`create_or_append_to_text_file`, lines 38-44, 73-76, 113-119) -/

/-- Lines 38-39 / 113-114: append a `.txt` suffix when absent. -/
def normTxt (file_name : String) : String :=
  if pyEndsWith file_name ".txt" then file_name else file_name ++ ".txt"

/-- Lines 41-42 / 73-74 / 116-117: enforce a trailing slash on a truthy
folder path. -/
def normFolder (folder_path : String) : String :=
  if folder_path != "" && !(pyEndsWith folder_path "/") then folder_path ++ "/"
  else folder_path

/-- Line 44 / 76 / 119: `folder + name` when the folder is truthy, else
`"/" + name`. -/
def fullPath (folder_path file_name : String) : String :=
  let fp := normFolder folder_path
  if fp != "" then fp ++ file_name else "/" ++ file_name

/-- The full remote path built by `create_text_file`. -/
def create_text_file_full_path (file_name folder_path : String) : String :=
  fullPath folder_path (normTxt file_name)

/-- The full remote path built by `create_folder`. -/
def create_folder_full_path (folder_name parent_path : String) : String :=
  fullPath parent_path folder_name

/-- The full remote path built by `create_or_append_to_text_file`
(lines 113-119, the same normalization as `create_text_file`). -/
def create_or_append_full_path (file_name folder_path : String) : String :=
  fullPath folder_path (normTxt file_name)

/-! ### Tools -/

/-- `create_text_file` (lines 27-59). `uploadApi` models
`dbx.files_upload`; the issued upload calls are returned. -/
def create_text_file (uploadApi : UploadCall → Except String Unit)
    (file_name content folder_path : String) : ToolResult × List UploadCall :=
  let full_path := create_text_file_full_path file_name folder_path
  let call : UploadCall :=
    { content := content, path := full_path, mode := some .add,
      autorename := false, mute := true, strict_conflict := false,
      client_modified := none }
  match uploadApi call with
  | .ok _ => (.success "Text File Created" full_path, [call])
  | .error e => (.err e, [call])

/-- `create_folder` (lines 62-90). -/
def create_folder (folderApi : FolderCall → Except String Unit)
    (folder_name parent_path : String) (autorename : Bool) :
    ToolResult × List FolderCall :=
  let full_path := create_folder_full_path folder_name parent_path
  let call : FolderCall := { path := full_path, autorename := autorename }
  match folderApi call with
  | .ok _ => (.success "Folder Created" full_path, [call])
  | .error e => (.err e, [call])

/-- Outcome of the `dbx.files_download` call inside `get_file_info`:
success with decoded content, an `ApiError` whose nested error is
path/not-found, or any other `ApiError`. -/
inductive DownloadResult where
  | found (content : String)
  | notFoundError
  | apiError (msg : String)

/-- `get_file_info` (lines 93-105): a path/not-found `ApiError` means
"no existing file"; every other `ApiError` is re-raised
(`Except.error`). -/
def get_file_info (download : String → DownloadResult)
    (path new_content : String) : Except String (Bool × String) :=
  match download path with
  | .found existing_content => .ok (true, existing_content ++ "\n" ++ new_content)
  | .notFoundError => .ok (false, new_content)
  | .apiError m => .error m

/-- `create_or_append_to_text_file` (lines 108-144). The `get_file_info`
lookup (line 122) runs before the `try` block (line 124), so an exception
it re-raises escapes the tool uncaught: that is the `Except.error` side.
A caught `ApiError` of the upload itself becomes the `ToolResult.err`
dictionary on the `Except.ok` side. -/
def create_or_append_to_text_file (download : String → DownloadResult)
    (uploadApi : UploadCall → Except String Unit)
    (file_name content folder_path : String) :
    Except String (ToolResult × List UploadCall) :=
  let full_path := create_or_append_full_path file_name folder_path
  match get_file_info download full_path content with
  | .error m => .error m
  | .ok (file_exists, final_content) =>
    let call : UploadCall :=
      { content := final_content, path := full_path, mode := some .overwrite,
        autorename := !file_exists, mute := true, strict_conflict := false,
        client_modified := none }
    match uploadApi call with
    | .ok _ => .ok (.success "Text successfully appended / created to the file" full_path, [call])
    | .error e => .ok (.err e, [call])

/-- Result of the live `dbx.users_get_current_account` call. -/
structure Account where
  account_type_tag : String

/-- `get_account_type` (lines 147-152), applied to the account-info
response. -/
def get_account_type (res : Account) : String :=
  res.account_type_tag

/-- `dropbox.sharing.RequestedVisibility` (only `public` is used). -/
inductive Visibility where
  | publicVis
  deriving DecidableEq

/-- A Python `datetime` value: the instant it denotes, on one common scale
(the ISO-8601 parse of line 185 is order-preserving on that scale), and
whether the value is timezone-aware. `datetime.fromisoformat` returns an
aware datetime exactly when the string carries an offset — a `±HH:MM`
suffix, or a `Z` suffix that line 185 first rewrites to `+00:00` — and a
naive one for an offset-free string. `datetime.utcnow()` is naive. -/
structure PyDatetime where
  instant : Int
  aware : Bool
  deriving DecidableEq

/-- Python's `datetime.__lt__` (line 186): comparing a naive with an aware
datetime raises `TypeError`; otherwise the instants are compared. -/
def pyLtDatetime (a b : PyDatetime) : Except String Bool :=
  if a.aware != b.aware then
    .error "cant compare offset-naive and offset-aware datetimes"
  else
    .ok (decide (a.instant < b.instant))

/-- An exception raised by `create_or_update_share_link` before the remote
share-link call: a deliberate validation `ValueError`, or the `TypeError`
of the naive/aware datetime comparison. Both escape the tool uncaught. -/
inductive ShareError where
  | valueError (msg : String)
  | typeError (msg : String)
  deriving DecidableEq

/-- The `SharedLinkSettings` value built at lines 191-196. -/
structure ShareSettings where
  requested_visibility : Visibility
  allow_download : Bool
  expires : Option PyDatetime
  link_password : Option String
  deriving DecidableEq

/-- Arguments of one `dbx.sharing_create_shared_link_with_settings` call. -/
structure ShareLinkCall where
  path : String
  settings : ShareSettings
  deriving DecidableEq

/-- `create_or_update_share_link` (lines 155-209), up to the remote
share-link call: `Except.error` is an exception raised before any remote
share-link call; `Except.ok` carries the remote call that is then issued.
`account` is the response of the live account-info call of line 168,
`now` is the instant of the naive `datetime.utcnow()`, `expires` is the
line-185 parse of the `expires` argument (`none` for a falsy argument).
The unused `access` parameter of the Python function is kept. -/
def create_or_update_share_link (account : Account) (now : Int) (path : String)
    (require_password : Bool) (link_password : Option String)
    (expires : Option PyDatetime) (access : Option String)
    (allow_download : Bool) :
    Except ShareError ShareLinkCall :=
  let account_type := get_account_type account
  if require_password && !(optTruthy link_password) then
    .error (.valueError
      "Since password protection is required, link_password must be provided.")
  else if account_type == "basic" && require_password then
    .error (.valueError
      "Password-protected links are not supported for Basic accounts.")
  else if account_type == "basic" && expires.isSome then
    .error (.valueError "Link expiration is not supported for Basic accounts.")
  else
    let pastCheck : Except ShareError Unit :=
      match expires with
      | some expire_dt =>
        match pyLtDatetime expire_dt (PyDatetime.mk now false) with
        | .error m => .error (.typeError m)
        | .ok true => .error (.valueError "Expiration date must be in the future.")
        | .ok false => .ok ()
      | none => .ok ()
    match pastCheck with
    | .error e => .error e
    | .ok _ =>
      let _ := access
      .ok { path := path,
            settings :=
              { requested_visibility := .publicVis,
                allow_download := allow_download,
                expires := expires,
                link_password := if require_password then link_password else none } }

/-- Result shape of `move_file_folder` (lines 309-344): the moved metadata
on success, the `error: message` dictionary on a caught `ApiError`. -/
inductive MoveResult (M : Type) where
  | meta (m : M)
  | errDict (msg : String)
  deriving DecidableEq

/-- `move_file_folder` (lines 309-344). The remote move call is always
issued, so it is the second component unconditionally. -/
def move_file_folder {M : Type} (moveApi : MoveCall → Except String M)
    (path_from path_to : String) (autorename allow_ownership_transfer : Bool) :
    MoveResult M × List MoveCall :=
  let file_name := (pySplitSlash (pyRstripSlash path_from)).getLastD ""
  let destination_path := pyRstripSlash path_to ++ "/" ++ file_name
  let call : MoveCall :=
    { from_path := path_from, to_path := destination_path,
      autorename := autorename,
      allow_ownership_transfer := allow_ownership_transfer }
  (match moveApi call with
   | .ok m => .meta m
   | .error e => .errDict e, [call])

/-- The metadata of one match returned by `dbx.files_search_v2`:
its name, display path, and whether it is folder-shaped
(`isinstance(metadata, FolderMetadata)`). -/
structure SearchMeta where
  name : String
  path_display : String
  isFolder : Bool
  deriving DecidableEq

/-- One formatted entry of the `search_files_folders` result. -/
structure FormattedMatch where
  name : String
  path_display : String
  type : String
  deriving DecidableEq

/-- The result dictionary of `search_files_folders`: both its success and
error branches carry `matches`, `total_matches` and `query`; only the error
branch adds the `error` string. -/
structure SearchResult where
  matches' : List FormattedMatch
  total_matches : Nat
  query : String
  error : Option String
  deriving DecidableEq

/-- `search_files_folders` (lines 431-465). `searchApi` models
`dbx.files_search_v2` applied to the query and `max_results`. -/
def search_files_folders
    (searchApi : String → Nat → Except String (List SearchMeta))
    (query : String) (max_results : Nat) : SearchResult :=
  match searchApi query max_results with
  | .ok ms =>
    let formatted_results := ms.map (fun m =>
      { name := m.name, path_display := m.path_display,
        type := if m.isFolder then "folder" else "file" : FormattedMatch })
    { matches' := formatted_results,
      total_matches := formatted_results.length,
      query := query, error := none }
  | .error e =>
    { matches' := [], total_matches := 0, query := query, error := some e }

/-- A remote fetch, a local file read, or a remote upload attempted by the
upload tools, in order. -/
inductive Event where
  | fetch (url : String)
  | readLocal (path : String)
  | upload (call : UploadCall)
  deriving DecidableEq

/-- Result shape of the upload tools: provider metadata on success, the
`error: message` dictionary on a caught exception. -/
inductive UploadOutcome (M : Type) where
  | meta (m : M)
  | err (msg : String)
  deriving DecidableEq

/-- `upload_file_to_dropbox` (lines 468-539). `Except.error` is the
`ValueError` of line 499 raised before the `try` block; everything inside
the `try` that fails is caught and becomes the `UploadOutcome.err`
dictionary. -/
def upload_file_to_dropbox {M : Type}
    (fetchApi localReadApi : String → Except String String)
    (uploadApi : UploadCall → Except String M)
    (file_url file_path : Option String)
    (dropbox_folder_path file_name : String)
    (autorename mute strict_conflict : Bool)
    (mode : Option String) (client_modified : Option String) :
    Except String (UploadOutcome M) × List Event :=
  if !(optTruthy file_url) && !(optTruthy file_path) then
    (.error "Must specify either file_url or file_path.", [])
  else
    let (contentRes, ev) :=
      if optTruthy file_url then
        (fetchApi (file_url.getD ""), Event.fetch (file_url.getD ""))
      else
        (localReadApi (file_path.getD ""), Event.readLocal (file_path.getD ""))
    match contentRes with
    | .error m => (.ok (.err m), [ev])
    | .ok contents =>
      let dropbox_path := pyRstripSlash dropbox_folder_path ++ "/" ++ file_name
      let upload_mode : Option WriteMode :=
        match mode with
        | some s =>
          if s = "add" then some .add
          else if s = "overwrite" then some .overwrite
          else if s = "update" then some .update
          else none
        | none => none
      let call : UploadCall :=
        { content := contents, path := dropbox_path, mode := upload_mode,
          autorename := autorename, mute := mute,
          strict_conflict := strict_conflict,
          client_modified := client_modified }
      match uploadApi call with
      | .ok m => (.ok (.meta m), [ev, .upload call])
      | .error e => (.ok (.err e), [ev, .upload call])

/-- One input item of the batch tool: a URL or a local path. -/
inductive Source where
  | url (u : String)
  | localPath (p : String)
  deriving DecidableEq

/-- The event recording that an item was fetched or read. -/
def sourceEvent : Source → Event
  | .url u => .fetch u
  | .localPath p => .readLocal p

/-- Obtaining the bytes of one item (`requests.get` or `open(...).read()`). -/
def fetchSource (fetchApi localReadApi : String → Except String String) :
    Source → Except String String
  | .url u => fetchApi u
  | .localPath p => localReadApi p

/-- The per-item mode argument of the batch tool (lines 599 and 616):
`dropbox.files.WriteMode(mode) if mode else None`; a truthy unrecognized
tag raises. -/
def batchModeArg (mode : Option String) : Except String (Option WriteMode) :=
  match mode with
  | some s => if s != "" then (WriteMode.ofTag s).map some else .ok none
  | none => .ok none

/-- The two sequential upload loops of `upload_multiple_files_to_dropbox`
(lines 585-619), over the concatenated items, threading the shared
`index` into `filenames`. An `Except.error` is an exception that the
surrounding `try` will catch. -/
def batchLoop {M : Type}
    (fetchApi localReadApi : String → Except String String)
    (uploadApi : UploadCall → Except String M)
    (dropbox_folder_path : String) (autorename mute strict_conflict : Bool)
    (mode : Option String) (filenames : List String) :
    List Source → Nat → Except String (List M) × List Event
  | [], _ => (.ok [], [])
  | s :: rest, index =>
    let ev := sourceEvent s
    match fetchSource fetchApi localReadApi s with
    | .error m => (.error m, [ev])
    | .ok content =>
      match batchModeArg mode with
      | .error m => (.error m, [ev])
      | .ok upload_mode =>
        let dropbox_path :=
          pyRstripSlash dropbox_folder_path ++ "/" ++ filenames.getD index ""
        let call : UploadCall :=
          { content := content, path := dropbox_path, mode := upload_mode,
            autorename := autorename, mute := mute,
            strict_conflict := strict_conflict, client_modified := none }
        match uploadApi call with
        | .error m => (.error m, [ev, .upload call])
        | .ok m =>
          match batchLoop fetchApi localReadApi uploadApi dropbox_folder_path
              autorename mute strict_conflict mode filenames rest (index + 1) with
          | (.error e, evs) => (.error e, ev :: .upload call :: evs)
          | (.ok ms, evs) => (.ok (m :: ms), ev :: .upload call :: evs)

/-- `upload_multiple_files_to_dropbox` (lines 542-626). `Except.error` is a
pre-loop exception (the two `ValueError`s, or the `TypeError` evaluating
`len(filenames)` when `filenames` is `None`), raised before any fetch,
read, or upload; a failure inside the loop is caught and returned as the
one-element error list. -/
def upload_multiple_files_to_dropbox {M : Type}
    (fetchApi localReadApi : String → Except String String)
    (uploadApi : UploadCall → Except String M)
    (file_urls file_paths filenames : Option (List String))
    (dropbox_folder_path : String) (autorename mute strict_conflict : Bool)
    (mode : Option String) :
    Except String (List (UploadOutcome M)) × List Event :=
  let urls := file_urls.getD []
  let paths := file_paths.getD []
  if urls.isEmpty && paths.isEmpty then
    (.error "Must specify either file_urls or file_paths.", [])
  else
    match filenames with
    | none => (.error "TypeError: object of type NoneType has no len", [])
    | some names =>
      if names.isEmpty || names.length != urls.length + paths.length then
        (.error "Number of filenames must match total files.", [])
      else
        let sources := urls.map Source.url ++ paths.map Source.localPath
        match batchLoop fetchApi localReadApi uploadApi dropbox_folder_path
            autorename mute strict_conflict mode names sources 0 with
        | (.ok ms, evs) => (.ok (ms.map UploadOutcome.meta), evs)
        | (.error m, evs) => (.ok [UploadOutcome.err m], evs)

/-- The claim-side reading of "ends in exactly one `.txt`": the path ends in
`.txt` but not in `.txt.txt`. -/
def endsInExactlyOneTxt (s : String) : Bool :=
  pyEndsWith s ".txt" && !(pyEndsWith s ".txt.txt")

/-- The spec-side basename of a path (spec §4.2 move:
`destination = path_to + "/" + basename(path_from)`): the characters after
the last slash once trailing slashes are removed. -/
def basenameSpec (p : String) : String :=
  ⟨((pyRstripSlash p).data.reverse.takeWhile (fun c => !(c == '/'))).reverse⟩

/-! ### Lemmas about the string primitives -/

theorem pyEndsWith_iff (s suffixStr : String) :
    pyEndsWith s suffixStr = true ↔ suffixStr.data <:+ s.data := by
  simp [pyEndsWith, List.isSuffixOf_iff_suffix]

theorem pyEndsWith_append_self (s t : String) :
    pyEndsWith (s ++ t) t = true := by
  rw [pyEndsWith_iff, String.data_append]
  exact List.suffix_append s.data t.data

theorem pyStartsWith_slash_of_data {s : String} {c : Char} {l : List Char}
    (h : s.data = c :: l) : pyStartsWith s "/" = ('/' == c) := by
  show List.isPrefixOf ['/'] s.data = ('/' == c)
  rw [h]
  simp [List.isPrefixOf]

theorem startsWith_slash_decomp (s : String)
    (h : pyStartsWith s "/" = true) : ∃ l, s.data = '/' :: l := by
  cases hs : s.data with
  | nil =>
    have : List.isPrefixOf ['/'] s.data = true := h
    rw [hs] at this
    cases this
  | cons c cs =>
    rw [pyStartsWith_slash_of_data hs] at h
    exact ⟨cs, by rw [← eq_of_beq h]⟩

theorem string_bne_empty_of_data_cons {s : String} {c : Char} {l : List Char}
    (h : s.data = c :: l) : (s != "") = true := by
  rw [bne_iff_ne]
  intro he
  rw [he] at h
  cases h

theorem normFolder_data (folder : String) (c : Char) (l : List Char)
    (h : folder.data = c :: l) :
    ∃ l2, (normFolder folder).data = c :: l2 := by
  unfold normFolder
  split
  · exact ⟨l ++ ['/'], by rw [String.data_append, h]; rfl⟩
  · exact ⟨l, h⟩

theorem fullPath_empty (name : String) : fullPath "" name = "/" ++ name := by
  simp [fullPath, normFolder]

theorem fullPath_data_cons (folder name : String) (c : Char) (l : List Char)
    (h : folder.data = c :: l) :
    ∃ l2, (fullPath folder name).data = c :: l2 := by
  obtain ⟨l2, h2⟩ := normFolder_data folder c l h
  have hne := string_bne_empty_of_data_cons h2
  refine ⟨l2 ++ name.data, ?_⟩
  show (if (normFolder folder) != "" then normFolder folder ++ name
        else "/" ++ name).data = c :: (l2 ++ name.data)
  rw [hne]
  simp only [if_true]
  rw [String.data_append, h2]
  rfl

theorem fullPath_startsWith_pos (folder name : String)
    (h : folder = "" ∨ pyStartsWith folder "/" = true) :
    pyStartsWith (fullPath folder name) "/" = true := by
  rcases h with h | h
  · subst h
    rw [fullPath_empty]
    have hd : ("/" ++ name).data = '/' :: name.data := by
      rw [String.data_append]; rfl
    rw [pyStartsWith_slash_of_data hd]
    decide
  · obtain ⟨l, hl⟩ := startsWith_slash_decomp folder h
    obtain ⟨l2, h2⟩ := fullPath_data_cons folder name '/' l hl
    rw [pyStartsWith_slash_of_data h2]
    decide

theorem fullPath_startsWith_neg (folder name : String)
    (h1 : folder ≠ "") (h2 : pyStartsWith folder "/" = false) :
    pyStartsWith (fullPath folder name) "/" = false := by
  cases hs : folder.data with
  | nil =>
    exfalso
    apply h1
    cases folder
    simp_all
  | cons c cs =>
    have hc : ('/' == c) = false := by
      rw [← pyStartsWith_slash_of_data hs]
      exact h2
    obtain ⟨l2, hl2⟩ := fullPath_data_cons folder name c cs hs
    rw [pyStartsWith_slash_of_data hl2]
    exact hc

/-! ### Claim C3 -/

/-- Claim C3 (as amended): the full remote paths built by `create_text_file`,
`create_folder` and `create_or_append_to_text_file` begin with a slash when
the folder/parent argument is empty or itself begins with a slash; a
non-empty folder argument without a leading slash is used as-is, so the
resulting path does not begin with a slash. -/
theorem paths_C3 (file_name folder : String) :
    ((folder = "" ∨ pyStartsWith folder "/" = true) →
      pyStartsWith (create_text_file_full_path file_name folder) "/" = true ∧
      pyStartsWith (create_folder_full_path file_name folder) "/" = true ∧
      pyStartsWith (create_or_append_full_path file_name folder) "/" = true) ∧
    (folder ≠ "" → pyStartsWith folder "/" = false →
      pyStartsWith (create_text_file_full_path file_name folder) "/" = false ∧
      pyStartsWith (create_folder_full_path file_name folder) "/" = false ∧
      pyStartsWith (create_or_append_full_path file_name folder) "/" = false) := by
  constructor
  · intro h
    exact ⟨fullPath_startsWith_pos folder (normTxt file_name) h,
           fullPath_startsWith_pos folder file_name h,
           fullPath_startsWith_pos folder (normTxt file_name) h⟩
  · intro h1 h2
    exact ⟨fullPath_startsWith_neg folder (normTxt file_name) h1 h2,
           fullPath_startsWith_neg folder file_name h1 h2,
           fullPath_startsWith_neg folder (normTxt file_name) h1 h2⟩

/-- Claim C3 counterexample: a non-empty folder path supplied without a
leading slash yields a full remote path that does not begin with a slash,
for all three path-building tools. -/
theorem paths_C3_counterexample :
    pyStartsWith (create_text_file_full_path "a" "docs") "/" = false ∧
    pyStartsWith (create_folder_full_path "sub" "docs") "/" = false ∧
    pyStartsWith (create_or_append_full_path "a" "docs") "/" = false := by
  decide

theorem paths_C3_witness :
    (pyStartsWith (create_text_file_full_path "a" "/docs") "/" = true ∧
     pyStartsWith (create_folder_full_path "a" "/docs") "/" = true ∧
     pyStartsWith (create_or_append_full_path "a" "/docs") "/" = true) ∧
    (pyStartsWith (create_text_file_full_path "a" "docs") "/" = false ∧
     pyStartsWith (create_folder_full_path "a" "docs") "/" = false ∧
     pyStartsWith (create_or_append_full_path "a" "docs") "/" = false) :=
  ⟨(paths_C3 "a" "/docs").1 (Or.inr (by decide)),
   (paths_C3 "a" "docs").2 (by decide) (by decide)⟩

/-! ### Claim C8 -/

theorem normTxt_of_endsWith {s : String} (h : pyEndsWith s ".txt" = true) :
    normTxt s = s := by
  unfold normTxt
  rw [h]
  simp

theorem normTxt_of_not_endsWith {s : String} (h : pyEndsWith s ".txt" = false) :
    normTxt s = s ++ ".txt" := by
  unfold normTxt
  rw [h]
  simp

theorem not_double_txt (n : String) (h : pyEndsWith n ".txt" = false) :
    pyEndsWith (n ++ ".txt") ".txt.txt" = false := by
  apply Bool.eq_false_iff.mpr
  intro hyp
  have hsuf := (pyEndsWith_iff _ _).mp hyp
  rw [String.data_append] at hsuf
  have h8 : (".txt.txt" : String).data =
      (".txt" : String).data ++ (".txt" : String).data := by decide
  rw [h8] at hsuf
  obtain ⟨pre2, hpre⟩ := hsuf
  rw [← List.append_assoc] at hpre
  have hcancel := List.append_cancel_right hpre
  have hsf : pyEndsWith n ".txt" = true :=
    (pyEndsWith_iff _ _).mpr ⟨pre2, hcancel⟩
  rw [hsf] at h
  cases h

theorem not_double_txt_cons (n : String) (h : pyEndsWith n ".txt" = false)
    (hsuf : (".txt.txt" : String).data <:+ '/' :: (n ++ ".txt").data) :
    False := by
  rw [List.suffix_cons_iff] at hsuf
  rcases hsuf with heq | hsuf
  · have hhd : (".txt.txt" : String).data =
        '.' :: ('t' :: 'x' :: 't' :: '.' :: 't' :: 'x' :: 't' :: []) := by decide
    rw [hhd] at heq
    injection heq with hc _
    exact absurd hc (by decide)
  · have hfalse := not_double_txt n h
    have htrue : pyEndsWith (n ++ ".txt") ".txt.txt" = true :=
      (pyEndsWith_iff _ _).mpr hsuf
    rw [htrue] at hfalse
    cases hfalse

theorem pyEndsWith_append_left (s x t : String)
    (hx : pyEndsWith x t = true) : pyEndsWith (s ++ x) t = true := by
  rw [pyEndsWith_iff, String.data_append]
  exact List.IsSuffix.trans ((pyEndsWith_iff _ _).mp hx)
    (List.suffix_append s.data x.data)

theorem normFolder_endsWith_slash (folder : String) (h : folder ≠ "") :
    ∃ l, (normFolder folder).data = l ++ ['/'] := by
  unfold normFolder
  by_cases he : pyEndsWith folder "/" = true
  · have hcond : (folder != "" && !(pyEndsWith folder "/")) = false := by
      rw [he]
      simp
    rw [hcond]
    simp only [Bool.false_eq_true, if_false]
    obtain ⟨l, hl⟩ := (pyEndsWith_iff folder "/").mp he
    exact ⟨l, hl.symm⟩
  · have hef : pyEndsWith folder "/" = false := Bool.eq_false_iff.mpr he
    have hcond : (folder != "" && !(pyEndsWith folder "/")) = true := by
      rw [hef]
      simp [bne_iff_ne, h]
    rw [hcond]
    simp only [if_true]
    exact ⟨folder.data, by rw [String.data_append]⟩

theorem fullPath_of_ne (folder x : String) (h : folder ≠ "") :
    fullPath folder x = normFolder folder ++ x := by
  cases hs : folder.data with
  | nil =>
    exfalso
    apply h
    cases folder
    simp_all
  | cons c cs =>
    obtain ⟨l2, h2⟩ := normFolder_data folder c cs hs
    have hne := string_bne_empty_of_data_cons h2
    show (if (normFolder folder) != "" then normFolder folder ++ x
          else "/" ++ x) = normFolder folder ++ x
    rw [hne]
    simp only [if_true]

theorem endsWith_txt_fullPath (folder x : String)
    (hx : pyEndsWith x ".txt" = true) :
    pyEndsWith (fullPath folder x) ".txt" = true := by
  by_cases hf : folder = ""
  · subst hf
    rw [fullPath_empty]
    exact pyEndsWith_append_left "/" x ".txt" hx
  · rw [fullPath_of_ne folder x hf]
    exact pyEndsWith_append_left (normFolder folder) x ".txt" hx

theorem not_double_txt_fullPath (n folder : String)
    (h : pyEndsWith n ".txt" = false) :
    pyEndsWith (fullPath folder (n ++ ".txt")) ".txt.txt" = false := by
  apply Bool.eq_false_iff.mpr
  intro hyp
  have hsuf := (pyEndsWith_iff _ _).mp hyp
  by_cases hf : folder = ""
  · rw [hf, fullPath_empty] at hsuf
    have hdata : ("/" ++ (n ++ ".txt")).data = '/' :: (n ++ ".txt").data := by
      rw [String.data_append]
      rfl
    rw [hdata] at hsuf
    exact not_double_txt_cons n h hsuf
  · rw [fullPath_of_ne folder _ hf, String.data_append] at hsuf
    obtain ⟨l, hl⟩ := normFolder_endsWith_slash folder hf
    rw [hl, List.append_assoc, List.singleton_append] at hsuf
    have hmid : ('/' :: (n ++ ".txt").data) <:+
        l ++ ('/' :: (n ++ ".txt").data) := List.suffix_append l _
    rcases List.suffix_or_suffix_of_suffix hsuf hmid with h1 | h2
    · exact not_double_txt_cons n h h1
    · obtain ⟨s2, hs2⟩ := h2
      have hmem : '/' ∈ (".txt.txt" : String).data := by
        rw [← hs2]
        exact List.mem_append_right s2 (List.mem_cons_self '/' _)
      exact absurd hmem (by decide)

/-- Claim C8 (as amended): the `.txt` normalization of `create_text_file`
and `create_or_append_to_text_file` is idempotent for every `file_name` (a
second application never double-appends), the stored path ends in `.txt` for
every `file_name` and every folder argument, and for every `file_name` that
does not already end in `.txt` the stored path ends in exactly one `.txt`,
again for every folder argument. A `file_name` already ending in several
`.txt` suffixes is stored as-is, so the original claim's unconditional
"for every file_name" fails for it. -/
theorem normTxt_C8 (file_name folder_path : String) :
    normTxt (normTxt file_name) = normTxt file_name ∧
    pyEndsWith (normTxt file_name) ".txt" = true ∧
    pyEndsWith (create_text_file_full_path file_name folder_path) ".txt" = true ∧
    (pyEndsWith file_name ".txt" = false →
      pyEndsWith (normTxt file_name) ".txt.txt" = false ∧
      endsInExactlyOneTxt (create_text_file_full_path file_name folder_path) = true ∧
      endsInExactlyOneTxt (create_or_append_full_path file_name folder_path) = true) := by
  have hends : pyEndsWith (normTxt file_name) ".txt" = true := by
    by_cases h : pyEndsWith file_name ".txt" = true
    · rw [normTxt_of_endsWith h]
      exact h
    · rw [normTxt_of_not_endsWith (Bool.eq_false_iff.mpr h)]
      exact pyEndsWith_append_self file_name ".txt"
  have hidem : normTxt (normTxt file_name) = normTxt file_name :=
    normTxt_of_endsWith hends
  have hpath : pyEndsWith (create_text_file_full_path file_name folder_path)
      ".txt" = true :=
    endsWith_txt_fullPath folder_path (normTxt file_name) hends
  refine ⟨hidem, hends, hpath, ?_⟩
  intro hf
  have hn := normTxt_of_not_endsWith hf
  have hnd : pyEndsWith (create_text_file_full_path file_name folder_path)
      ".txt.txt" = false := by
    show pyEndsWith (fullPath folder_path (normTxt file_name)) ".txt.txt" = false
    rw [hn]
    exact not_double_txt_fullPath file_name folder_path hf
  refine ⟨by rw [hn]; exact not_double_txt file_name hf, ?_, ?_⟩
  · unfold endsInExactlyOneTxt
    rw [hpath, hnd]
    rfl
  · show endsInExactlyOneTxt (create_text_file_full_path file_name folder_path) = true
    unfold endsInExactlyOneTxt
    rw [hpath, hnd]
    rfl

/-- Claim C8 counterexample: for `file_name = "a.txt.txt"` the normalization
leaves the name unchanged and the stored path ends in `.txt.txt`, i.e. not in
exactly one `.txt`. -/
theorem normTxt_C8_counterexample :
    normTxt "a.txt.txt" = "a.txt.txt" ∧
    create_text_file_full_path "a.txt.txt" "" = "/a.txt.txt" ∧
    pyEndsWith (create_text_file_full_path "a.txt.txt" "") ".txt.txt" = true ∧
    endsInExactlyOneTxt (create_text_file_full_path "a.txt.txt" "") = false ∧
    endsInExactlyOneTxt (create_text_file_full_path "a.txt.txt" "docs") = false ∧
    endsInExactlyOneTxt (create_or_append_full_path "a.txt.txt" "") = false := by
  decide

theorem normTxt_C8_witness :
    pyEndsWith ("report" : String) ".txt" = false ∧
    pyEndsWith (normTxt "report") ".txt.txt" = false ∧
    endsInExactlyOneTxt (create_text_file_full_path "report" "docs") = true ∧
    endsInExactlyOneTxt (create_or_append_full_path "report" "docs") = true ∧
    pyEndsWith (create_text_file_full_path "report" "docs") ".txt" = true := by
  have h := normTxt_C8 "report" "docs"
  have hp := h.2.2.2 (by decide)
  exact ⟨by decide, hp.1, hp.2.1, hp.2.2, h.2.2.1⟩

/-! ### Claim C1 -/

/-- Claim C1 (code bug at the claimed pass-through): line 185 explicitly
rewrites a `Z` suffix to `+00:00` so that offset-bearing ISO-8601 expiry
strings parse — to a timezone-aware datetime — and line 186 then compares
that aware datetime with the naive `datetime.utcnow()`, which always raises
an uncaught `TypeError`; so for a valid future timezone-aware `expires` on a
non-basic tier the share-link call is never issued, contradicting the
claim. The same call with an offset-free (naive) expiry succeeds and passes
the expiry through unchanged, exactly as the claim demands, showing the
aware branch is a slip rather than a different intent. -/
theorem share_link_C1_bug :
    create_or_update_share_link ⟨"plus"⟩ 0 "/f" false none
        (some (PyDatetime.mk 5 true)) none true =
      Except.error (ShareError.typeError
        "cant compare offset-naive and offset-aware datetimes") ∧
    (∃ call, create_or_update_share_link ⟨"plus"⟩ 0 "/f" false none
        (some (PyDatetime.mk 5 false)) none true = Except.ok call ∧
      call.settings.expires = some (PyDatetime.mk 5 false)) := by
  exact ⟨rfl, ⟨_, rfl, rfl⟩⟩

/-! ### Claim C2 -/

/-- Claim C2 counterexample: when the existence lookup of
`create_or_append_to_text_file` hits a remote API error other than
path/not-found, the re-raised error escapes the tool uncaught
(`Except.error`, the raised-exception side of the model) instead of
surfacing as the tool's own `error: message` result, because the lookup
runs before the tool's `try` block. -/
theorem append_C2_counterexample :
    create_or_append_to_text_file (fun _ => DownloadResult.apiError "boom")
      (fun _ => Except.ok ()) "notes" "hello" "" = Except.error "boom" := by
  rfl

/-- Claim C2 (as amended): during the `create_or_append_to_text_file`
existence lookup, a path/not-found download error is not a failure — the
call continues as a new-file write — while every other remote API error
raised during that lookup is re-raised and, the lookup being outside the
tool's `try` block, propagates raw out of the tool instead of becoming the
tool's `error: message` result. -/
theorem append_C2 (download : String → DownloadResult)
    (uploadApi : UploadCall → Except String Unit)
    (file_name content folder_path : String) :
    (download (create_or_append_full_path file_name folder_path) =
        DownloadResult.notFoundError →
      ∃ res call,
        create_or_append_to_text_file download uploadApi
          file_name content folder_path = Except.ok (res, [call]) ∧
        call.content = content ∧ call.autorename = true) ∧
    (∀ m, download (create_or_append_full_path file_name folder_path) =
        DownloadResult.apiError m →
      create_or_append_to_text_file download uploadApi
        file_name content folder_path = Except.error m) := by
  constructor
  · intro hdl
    simp only [create_or_append_to_text_file, get_file_info, hdl]
    cases uploadApi
        { content := content,
          path := create_or_append_full_path file_name folder_path,
          mode := some .overwrite, autorename := !false, mute := true,
          strict_conflict := false, client_modified := none } with
    | ok u => exact ⟨_, _, rfl, rfl, rfl⟩
    | error e => exact ⟨_, _, rfl, rfl, rfl⟩
  · intro m hdl
    simp only [create_or_append_to_text_file, get_file_info, hdl]

theorem append_C2_witness :
    ((fun _ => DownloadResult.notFoundError :
        String → DownloadResult) "/notes.txt" = DownloadResult.notFoundError) ∧
    (∃ res call,
      create_or_append_to_text_file (fun _ => DownloadResult.notFoundError)
        (fun _ => Except.ok ()) "notes" "hello" "" = Except.ok (res, [call]) ∧
      call.content = "hello" ∧ call.autorename = true) ∧
    create_or_append_to_text_file (fun _ => DownloadResult.apiError "err1")
      (fun _ => Except.ok ()) "notes" "hello" "" = Except.error "err1" := by
  refine ⟨rfl, ?_, ?_⟩
  · exact (append_C2 (fun _ => DownloadResult.notFoundError)
      (fun _ => Except.ok ()) "notes" "hello" "").1 rfl
  · exact (append_C2 (fun _ => DownloadResult.apiError "err1")
      (fun _ => Except.ok ()) "notes" "hello" "").2 "err1" rfl

/-! ### Claim C5 -/

/-- Claim C5: when no file exists at the normalized path, the uploaded
content of `create_or_append_to_text_file` is the given content and the
write is performed with autorename enabled; when a file with content `C0`
exists there, the uploaded content is `C0 ++ "\n" ++ content` and the write
uses overwrite mode with autorename suppressed. -/
theorem append_C5 (download : String → DownloadResult)
    (uploadApi : UploadCall → Except String Unit)
    (file_name content folder_path : String) :
    (download (create_or_append_full_path file_name folder_path) =
        DownloadResult.notFoundError →
      ∃ res call,
        create_or_append_to_text_file download uploadApi
          file_name content folder_path = Except.ok (res, [call]) ∧
        call.content = content ∧ call.autorename = true ∧
        call.path = create_or_append_full_path file_name folder_path) ∧
    (∀ C0, download (create_or_append_full_path file_name folder_path) =
        DownloadResult.found C0 →
      ∃ res call,
        create_or_append_to_text_file download uploadApi
          file_name content folder_path = Except.ok (res, [call]) ∧
        call.content = C0 ++ "\n" ++ content ∧
        call.mode = some WriteMode.overwrite ∧ call.autorename = false ∧
        call.path = create_or_append_full_path file_name folder_path) := by
  constructor
  · intro hdl
    simp only [create_or_append_to_text_file, get_file_info, hdl]
    cases uploadApi
        { content := content,
          path := create_or_append_full_path file_name folder_path,
          mode := some .overwrite, autorename := !false, mute := true,
          strict_conflict := false, client_modified := none } with
    | ok u => exact ⟨_, _, rfl, rfl, rfl, rfl⟩
    | error e => exact ⟨_, _, rfl, rfl, rfl, rfl⟩
  · intro C0 hdl
    simp only [create_or_append_to_text_file, get_file_info, hdl]
    cases uploadApi
        { content := C0 ++ "\n" ++ content,
          path := create_or_append_full_path file_name folder_path,
          mode := some .overwrite, autorename := !true, mute := true,
          strict_conflict := false, client_modified := none } with
    | ok u => exact ⟨_, _, rfl, rfl, rfl, rfl, rfl⟩
    | error e => exact ⟨_, _, rfl, rfl, rfl, rfl, rfl⟩

theorem append_C5_witness :
    (∃ res call,
      create_or_append_to_text_file (fun _ => DownloadResult.notFoundError)
        (fun _ => Except.ok ()) "a" "new" "" = Except.ok (res, [call]) ∧
      call.content = "new" ∧ call.autorename = true ∧
      call.path = create_or_append_full_path "a" "") ∧
    (∃ res call,
      create_or_append_to_text_file (fun _ => DownloadResult.found "old")
        (fun _ => Except.ok ()) "a" "new" "" = Except.ok (res, [call]) ∧
      call.content = "old" ++ "\n" ++ "new" ∧
      call.mode = some WriteMode.overwrite ∧ call.autorename = false ∧
      call.path = create_or_append_full_path "a" "") := by
  constructor
  · exact (append_C5 (fun _ => DownloadResult.notFoundError)
      (fun _ => Except.ok ()) "a" "new" "").1 rfl
  · exact (append_C5 (fun _ => DownloadResult.found "old")
      (fun _ => Except.ok ()) "a" "new" "").2 "old" rfl

/-! ### Claim C4 -/

/-- Claim C10: when the remote search raises an API error,
`search_files_folders` still returns the success shape with
`matches = []` and `total_matches = 0`, together with the original query
and the error string, instead of the bare `error: message` dictionary used
by the other tools. -/
theorem search_C10 (searchApi : String → Nat → Except String (List SearchMeta))
    (query : String) (max_results : Nat) (msg : String)
    (h : searchApi query max_results = Except.error msg) :
    search_files_folders searchApi query max_results =
      { matches' := [], total_matches := 0, query := query,
        error := some msg } := by
  unfold search_files_folders
  rw [h]

theorem search_C10_witness :
    search_files_folders (fun _ _ => Except.error "api down") "q" 10 =
      { matches' := [], total_matches := 0, query := "q",
        error := some "api down" } :=
  search_C10 (fun _ _ => Except.error "api down") "q" 10 "api down" rfl

/-! ### Claim C7 -/

theorem takeWhile_append_singleton_false {P : Char → Bool} (xs : List Char)
    (c : Char) (hc : P c = false) :
    (xs ++ [c]).takeWhile P = xs.takeWhile P := by
  induction xs with
  | nil => simp [List.takeWhile, hc]
  | cons x xs ih =>
    simp only [List.cons_append, List.takeWhile]
    cases P x <;> simp [ih]

theorem takeWhile_append_singleton_true {P : Char → Bool} (xs : List Char)
    (c : Char) (hall : xs.all P = true) (hc : P c = true) :
    (xs ++ [c]).takeWhile P = xs ++ [c] := by
  induction xs with
  | nil => simp [List.takeWhile, hc]
  | cons x xs ih =>
    simp only [List.all_cons, Bool.and_eq_true] at hall
    simp [List.takeWhile, hall.1, ih hall.2]

theorem takeWhile_append_of_bad {P : Char → Bool} (xs ys : List Char)
    (h : ¬ xs.all P = true) :
    (xs ++ ys).takeWhile P = xs.takeWhile P := by
  induction xs with
  | nil => simp at h
  | cons x xs ih =>
    cases hx : P x with
    | false => simp [List.takeWhile, hx]
    | true =>
      have hxs : ¬ xs.all P = true := by
        intro hall
        exact h (by simp [List.all_cons, hx, hall])
      simp [List.takeWhile, hx, ih hxs]

theorem splitOnSlashChars_ne_nil (l : List Char) : splitOnSlashChars l ≠ [] := by
  cases l with
  | nil => simp [splitOnSlashChars]
  | cons c cs =>
    simp only [splitOnSlashChars]
    split
    · simp
    · split <;> simp

theorem splitOnSlashChars_all_noslash (l : List Char)
    (h : l.all (fun c => !(c == '/')) = true) :
    splitOnSlashChars l = [l] := by
  induction l with
  | nil => rfl
  | cons c cs ih =>
    simp only [List.all_cons, Bool.and_eq_true] at h
    have hc : (c == '/') = false := by
      cases hcc : (c == '/')
      · rfl
      · rw [hcc] at h; simp at h
    simp [splitOnSlashChars, hc, ih h.2]

theorem splitOnSlashChars_len_ge_two (l : List Char)
    (h : ¬ l.all (fun c => !(c == '/')) = true) :
    2 ≤ (splitOnSlashChars l).length := by
  induction l with
  | nil => simp at h
  | cons c cs ih =>
    by_cases hc : (c == '/') = true
    · have hne := splitOnSlashChars_ne_nil cs
      have hpos : 0 < (splitOnSlashChars cs).length := List.length_pos.mpr hne
      simp only [splitOnSlashChars, hc, if_true, List.length_cons]
      omega
    · have hcf : (c == '/') = false := Bool.eq_false_iff.mpr hc
      have hcs : ¬ cs.all (fun x => !(x == '/')) = true := by
        intro hall
        apply h
        simp [List.all_cons, hcf, hall]
      have h2 := ih hcs
      cases hsp : splitOnSlashChars cs with
      | nil => exact absurd hsp (splitOnSlashChars_ne_nil cs)
      | cons hh tt =>
        rw [hsp] at h2
        simp only [splitOnSlashChars, hcf, hsp, List.length_cons] at h2 ⊢
        simp only [Bool.false_eq_true, if_false]
        simp only [List.length_cons]
        omega

theorem splitOnSlashChars_getLastD (l : List Char) :
    (splitOnSlashChars l).getLastD [] =
      (l.reverse.takeWhile (fun c => !(c == '/'))).reverse := by
  induction l with
  | nil => rfl
  | cons c cs ih =>
    cases hsp : splitOnSlashChars cs with
    | nil => exact absurd hsp (splitOnSlashChars_ne_nil cs)
    | cons hh tt =>
      rw [hsp] at ih
      by_cases hc : (c == '/') = true
      · have hsplit : splitOnSlashChars (c :: cs) = [] :: hh :: tt := by
          simp [splitOnSlashChars, hc, hsp]
        have hPc : ((fun x => !(x == '/')) c) = false := by simp [hc]
        rw [hsplit, List.reverse_cons,
          takeWhile_append_singleton_false cs.reverse c hPc]
        rw [List.getLastD_cons, List.getLastD_cons]
        rw [List.getLastD_cons] at ih
        exact ih
      · have hcf : (c == '/') = false := Bool.eq_false_iff.mpr hc
        have hsplit : splitOnSlashChars (c :: cs) = (c :: hh) :: tt := by
          simp [splitOnSlashChars, hcf, hsp]
        have hPc : ((fun x => !(x == '/')) c) = true := by simp [hcf]
        rw [hsplit]
        cases tt with
        | nil =>
          by_cases hall : cs.all (fun x => !(x == '/')) = true
          · have hcs := splitOnSlashChars_all_noslash cs hall
            rw [hsp] at hcs
            have hhh : hh = cs := by injection hcs
            have hallrev : cs.reverse.all (fun x => !(x == '/')) = true := by
              simp only [List.all_eq_true, List.mem_reverse]
              rw [List.all_eq_true] at hall
              exact hall
            rw [List.reverse_cons,
              takeWhile_append_singleton_true cs.reverse c hallrev hPc]
            simp [hhh]
          · have h2 := splitOnSlashChars_len_ge_two cs hall
            rw [hsp] at h2
            simp at h2
        | cons t1 ts =>
          by_cases hall : cs.all (fun x => !(x == '/')) = true
          · exfalso
            have hcs := splitOnSlashChars_all_noslash cs hall
            rw [hsp] at hcs
            injection hcs with h1 h2
            cases h2
          · have hbadrev : ¬ cs.reverse.all (fun x => !(x == '/')) = true := by
              simp only [List.all_eq_true, List.mem_reverse]
              rw [List.all_eq_true] at hall
              exact hall
            rw [List.reverse_cons,
              takeWhile_append_of_bad cs.reverse [c] hbadrev]
            rw [List.getLastD_cons, List.getLastD_cons]
            rw [List.getLastD_cons, List.getLastD_cons] at ih
            exact ih

theorem getLastD_map_mk (hh : List Char) (tt : List (List Char)) :
    ((hh :: tt).map (fun l => (⟨l⟩ : String))).getLastD "" =
      ⟨(hh :: tt).getLastD []⟩ := by
  induction tt generalizing hh with
  | nil => rfl
  | cons t ts ih =>
    have ih2 := ih t
    simp only [List.map_cons, List.getLastD_cons] at ih2 ⊢
    exact ih2

theorem pySplitSlash_getLastD (s : String) :
    (pySplitSlash s).getLastD "" =
      ⟨(s.data.reverse.takeWhile (fun c => !(c == '/'))).reverse⟩ := by
  unfold pySplitSlash
  cases hsp : splitOnSlashChars s.data with
  | nil => exact absurd hsp (splitOnSlashChars_ne_nil s.data)
  | cons hh tt =>
    have hmain := splitOnSlashChars_getLastD s.data
    rw [hsp] at hmain
    rw [getLastD_map_mk hh tt, hmain]

theorem move_dest_eq (path_from : String) :
    (pySplitSlash (pyRstripSlash path_from)).getLastD "" =
      basenameSpec path_from := by
  rw [pySplitSlash_getLastD]
  rfl

/-- Claim C7: the destination passed to the remote move by
`move_file_folder` is `path_to` with trailing slashes removed, followed by
a slash and the basename of `path_from`; in particular
`path_from = "/a/b/c.txt"`, `path_to = "/x/y"` yields exactly
`"/x/y/c.txt"`. -/
theorem move_C7 :
    (∀ (M : Type) (moveApi : MoveCall → Except String M)
        (path_from path_to : String) (a b : Bool),
      (move_file_folder moveApi path_from path_to a b).2 =
        [{ from_path := path_from,
           to_path := pyRstripSlash path_to ++ "/" ++ basenameSpec path_from,
           autorename := a, allow_ownership_transfer := b }]) ∧
    (move_file_folder (fun _ => Except.ok ()) "/a/b/c.txt" "/x/y"
        false false).2 =
      [{ from_path := "/a/b/c.txt", to_path := "/x/y/c.txt",
         autorename := false, allow_ownership_transfer := false }] := by
  constructor
  · intro M moveApi path_from path_to a b
    show [({ from_path := path_from,
             to_path := pyRstripSlash path_to ++ "/" ++
               (pySplitSlash (pyRstripSlash path_from)).getLastD "",
             autorename := a, allow_ownership_transfer := b } : MoveCall)] = _
    rw [move_dest_eq path_from]
  · decide

/-! ### Claims C6 and C9 -/

theorem batchLoop_ok_length {M : Type}
    (fetchApi localReadApi : String → Except String String)
    (uploadApi : UploadCall → Except String M) (folder : String)
    (a mu sc : Bool) (mode : Option String) (names : List String) :
    ∀ (sources : List Source) (ix : Nat) (ms : List M) (evs : List Event),
      batchLoop fetchApi localReadApi uploadApi folder a mu sc mode names
          sources ix = (Except.ok ms, evs) →
      ms.length = sources.length := by
  intro sources
  induction sources with
  | nil =>
    intro ix ms evs h
    simp only [batchLoop, Prod.mk.injEq, Except.ok.injEq] at h
    obtain ⟨h1, h2⟩ := h
    rw [← h1]
    rfl
  | cons s rest ih =>
    intro ix ms evs h
    simp only [batchLoop] at h
    cases hf : fetchSource fetchApi localReadApi s with
    | error m =>
      rw [hf] at h
      simp at h
    | ok content =>
      rw [hf] at h
      simp only [] at h
      cases hm : batchModeArg mode with
      | error m =>
        rw [hm] at h
        simp at h
      | ok um =>
        rw [hm] at h
        simp only [] at h
        cases hu : uploadApi (UploadCall.mk content
            (pyRstripSlash folder ++ "/" ++ names.getD ix "") um a mu sc
            none) with
        | error m =>
          rw [hu] at h
          simp at h
        | ok m =>
          rw [hu] at h
          simp only [] at h
          cases hrec : batchLoop fetchApi localReadApi uploadApi folder a mu sc
              mode names rest (ix + 1) with
          | mk res evs2 =>
            rw [hrec] at h
            cases res with
            | error e => simp at h
            | ok ms2 =>
              simp only [Prod.mk.injEq, Except.ok.injEq] at h
              obtain ⟨h1, h2⟩ := h
              rw [← h1, List.length_cons, List.length_cons,
                ih (ix + 1) ms2 evs2 hrec]

/-- Claim C6: a `filenames` count that differs from the total number of
input files makes `upload_multiple_files_to_dropbox` raise a validation
error with zero fetches, reads or uploads attempted; and any normally
returned list is either one provider-metadata entry per input file or a
single-element error list — never a mixed per-item list. -/
theorem batch_C6 {M : Type}
    (fetchApi localReadApi : String → Except String String)
    (uploadApi : UploadCall → Except String M)
    (file_urls file_paths filenames : Option (List String))
    (folder : String) (a mu sc : Bool) (mode : Option String) :
    ((filenames = none ∨ ∃ names, filenames = some names ∧
        names.length ≠ (file_urls.getD []).length + (file_paths.getD []).length) →
      ∃ m, upload_multiple_files_to_dropbox fetchApi localReadApi uploadApi
          file_urls file_paths filenames folder a mu sc mode =
        (Except.error m, [])) ∧
    (∀ l evs, upload_multiple_files_to_dropbox fetchApi localReadApi uploadApi
        file_urls file_paths filenames folder a mu sc mode =
        (Except.ok l, evs) →
      (∃ ms : List M, l = ms.map UploadOutcome.meta ∧
        ms.length = (file_urls.getD []).length + (file_paths.getD []).length) ∨
      (∃ m, l = [UploadOutcome.err m])) := by
  constructor
  · intro h
    by_cases hempty :
        ((file_urls.getD []).isEmpty && (file_paths.getD []).isEmpty) = true
    · exact ⟨"Must specify either file_urls or file_paths.",
        by simp only [upload_multiple_files_to_dropbox, hempty, if_true]⟩
    · have hemptyf :
          ((file_urls.getD []).isEmpty && (file_paths.getD []).isEmpty) = false :=
        Bool.eq_false_iff.mpr hempty
      rcases h with hnone | ⟨names, hsome, hlen⟩
      · subst hnone
        exact ⟨"TypeError: object of type NoneType has no len",
          by simp only [upload_multiple_files_to_dropbox, hemptyf,
            Bool.false_eq_true, if_false]⟩
      · subst hsome
        have hbne : (names.length !=
            (file_urls.getD []).length + (file_paths.getD []).length) = true :=
          bne_iff_ne.mpr hlen
        exact ⟨"Number of filenames must match total files.",
          by simp only [upload_multiple_files_to_dropbox, hemptyf,
            Bool.false_eq_true, if_false, hbne, Bool.or_true, if_true]⟩
  · intro l evs h
    by_cases hempty :
        ((file_urls.getD []).isEmpty && (file_paths.getD []).isEmpty) = true
    · simp only [upload_multiple_files_to_dropbox, hempty, if_true] at h
      simp at h
    · have hemptyf :
          ((file_urls.getD []).isEmpty && (file_paths.getD []).isEmpty) = false :=
        Bool.eq_false_iff.mpr hempty
      simp only [upload_multiple_files_to_dropbox, hemptyf, Bool.false_eq_true,
        if_false] at h
      cases filenames with
      | none => simp at h
      | some names =>
        by_cases hcond : (names.isEmpty || names.length !=
            (file_urls.getD []).length + (file_paths.getD []).length) = true
        · simp only [hcond, if_true] at h
          simp at h
        · have hcondf := Bool.eq_false_iff.mpr hcond
          simp only [hcondf, Bool.false_eq_true, if_false] at h
          cases hbl : batchLoop fetchApi localReadApi uploadApi folder a mu sc
              mode names ((file_urls.getD []).map Source.url ++
                (file_paths.getD []).map Source.localPath) 0 with
          | mk res evs2 =>
            rw [hbl] at h
            cases res with
            | ok ms =>
              simp only [Prod.mk.injEq, Except.ok.injEq] at h
              obtain ⟨h1, h2⟩ := h
              left
              refine ⟨ms, h1.symm, ?_⟩
              rw [batchLoop_ok_length fetchApi localReadApi uploadApi folder
                a mu sc mode names _ 0 ms evs2 hbl]
              simp
            | error m =>
              simp only [Prod.mk.injEq, Except.ok.injEq] at h
              obtain ⟨h1, h2⟩ := h
              right
              exact ⟨m, h1.symm⟩

theorem batch_C6_witness :
    (∃ m, upload_multiple_files_to_dropbox
        (fun _ => Except.ok "d") (fun _ => Except.ok "d")
        (fun _ => Except.ok ()) (some ["u1"]) none (some ["a", "b"])
        "/d" false false false none = (Except.error m, [])) ∧
    ((∃ ms : List Unit, [UploadOutcome.err "boom2"] = ms.map UploadOutcome.meta ∧
        ms.length = 3) ∨
      (∃ m, ([UploadOutcome.err "boom2"] : List (UploadOutcome Unit)) =
        [UploadOutcome.err m])) := by
  constructor
  · exact (batch_C6 (fun _ => Except.ok "d") (fun _ => Except.ok "d")
      (fun _ => Except.ok ()) (some ["u1"]) none (some ["a", "b"])
      "/d" false false false none).1
      (Or.inr ⟨["a", "b"], rfl, by decide⟩)
  · exact (batch_C6
      (fun u => if u == "u2" then Except.error "boom2" else Except.ok u)
      (fun _ => Except.ok "d") (fun _ => Except.ok ())
      (some ["u1", "u2", "u3"]) none (some ["f1", "f2", "f3"])
      "/d" false false false none).2 [UploadOutcome.err "boom2"]
      [Event.fetch "u1",
        Event.upload (UploadCall.mk "u1" "/d/f1" none false false false none),
        Event.fetch "u2"] rfl

/-- Claim C9: with at least one input file and a non-empty mode string
outside add / overwrite / update, the batch tool does not silently drop the
mode: constructing the write mode for the first item raises inside the
batch's `try`, so the call returns a one-element error list and no upload is
attempted; the single-file tool with the same mode instead drops it (the
remote upload call is made with the mode argument omitted). -/
theorem batch_mode_C9 {M : Type}
    (fetchApi localReadApi : String → Except String String)
    (uploadApi : UploadCall → Except String M)
    (urls paths names : List String) (folder : String) (a mu sc : Bool)
    (s fUrl fname : String)
    (hne : ¬(urls = [] ∧ paths = []))
    (hlen : names.length = urls.length + paths.length)
    (hs0 : s ≠ "") (hs1 : s ≠ "add") (hs2 : s ≠ "overwrite")
    (hs3 : s ≠ "update") (hfUrl : fUrl ≠ "") :
    (∃ m evs, upload_multiple_files_to_dropbox fetchApi localReadApi uploadApi
        (some urls) (some paths) (some names) folder a mu sc (some s) =
        (Except.ok [UploadOutcome.err m], evs) ∧
      ∀ c, Event.upload c ∉ evs) ∧
    (∀ content, fetchApi fUrl = Except.ok content →
      ∃ call evs r, upload_file_to_dropbox fetchApi localReadApi uploadApi
          (some fUrl) none folder fname a mu sc (some s) none = (r, evs) ∧
        Event.upload call ∈ evs ∧ call.mode = none) := by
  have hmode : batchModeArg (some s) =
      Except.error ("Invalid WriteMode tag: " ++ s) := by
    have hsne : (s != "") = true := bne_iff_ne.mpr hs0
    simp only [batchModeArg, WriteMode.ofTag, hsne, if_true]
    rw [if_neg hs1, if_neg hs2, if_neg hs3]
    rfl
  constructor
  · have htot : 0 < urls.length + paths.length := by
      rcases Nat.eq_zero_or_pos (urls.length + paths.length) with hz | hp
      · exfalso
        apply hne
        constructor
        · exact List.length_eq_zero.mp (by omega)
        · exact List.length_eq_zero.mp (by omega)
      · exact hp
    have hemptyf : (urls.isEmpty && paths.isEmpty) = false := by
      cases hu : urls.isEmpty with
      | false => rfl
      | true =>
        cases hp : paths.isEmpty with
        | false => simp
        | true =>
          exfalso
          exact hne ⟨List.isEmpty_iff.mp hu, List.isEmpty_iff.mp hp⟩
    have hnames : names.isEmpty = false := by
      cases hn : names.isEmpty with
      | false => rfl
      | true =>
        exfalso
        have := List.isEmpty_iff.mp hn
        rw [this] at hlen
        simp at hlen
        omega
    have hbnef : (names.length != urls.length + paths.length) = false := by
      simp [hlen]
    have hcondf : (names.isEmpty ||
        names.length != urls.length + paths.length) = false := by
      rw [hnames, hbnef]
      rfl
    cases hsrc : urls.map Source.url ++ paths.map Source.localPath with
    | nil =>
      exfalso
      have hlen0 := congrArg List.length hsrc
      simp only [List.length_append, List.length_map, List.length_nil] at hlen0
      omega
    | cons s0 rest =>
      have hloop : ∃ m, batchLoop fetchApi localReadApi uploadApi folder
          a mu sc (some s) names (s0 :: rest) 0 =
          (Except.error m, [sourceEvent s0]) := by
        cases hf : fetchSource fetchApi localReadApi s0 with
        | error m => exact ⟨m, by simp only [batchLoop, hf]⟩
        | ok content =>
          exact ⟨"Invalid WriteMode tag: " ++ s,
            by simp only [batchLoop, hf, hmode]⟩
      obtain ⟨m, hm⟩ := hloop
      refine ⟨m, [sourceEvent s0], ?_, ?_⟩
      · simp only [upload_multiple_files_to_dropbox, Option.getD_some, hemptyf,
          Bool.false_eq_true, if_false, hcondf, hsrc, hm]
      · intro c
        cases s0 <;> simp [sourceEvent]
  · intro content hcontent
    have hTru : (fUrl != "") = true := bne_iff_ne.mpr hfUrl
    simp only [upload_file_to_dropbox, optTruthy, hTru, Bool.not_true,
      Bool.false_and, Bool.false_eq_true, if_false, if_true, Option.getD_some,
      hcontent]
    rw [if_neg hs1, if_neg hs2, if_neg hs3]
    cases hu : uploadApi (UploadCall.mk content
        (pyRstripSlash folder ++ "/" ++ fname) none a mu sc none) with
    | ok m =>
      exact ⟨UploadCall.mk content (pyRstripSlash folder ++ "/" ++ fname)
        none a mu sc none, _, _, rfl, by simp, rfl⟩
    | error e =>
      exact ⟨UploadCall.mk content (pyRstripSlash folder ++ "/" ++ fname)
        none a mu sc none, _, _, rfl, by simp, rfl⟩

theorem batch_mode_C9_witness :
    (∃ m evs, upload_multiple_files_to_dropbox
        (fun _ => Except.ok "d") (fun _ => Except.ok "d")
        (fun _ => Except.ok ()) (some ["u1"]) (some []) (some ["f1"])
        "/d" false false false (some "bogus") =
        (Except.ok [UploadOutcome.err m], evs) ∧
      ∀ c, Event.upload c ∉ evs) ∧
    (∃ call evs r, upload_file_to_dropbox
        (fun _ => Except.ok "d") (fun _ => Except.ok "d")
        (fun _ => Except.ok ()) (some "u1") none "/d" "f1"
        false false false (some "bogus") none = (r, evs) ∧
      Event.upload call ∈ evs ∧ call.mode = none) := by
  have h := batch_mode_C9 (fun _ => Except.ok "d") (fun _ => Except.ok "d")
    (fun _ => Except.ok ()) ["u1"] [] ["f1"] "/d" false false false
    "bogus" "u1" "f1" (by simp) rfl (by decide) (by decide) (by decide)
    (by decide) (by decide)
  exact ⟨h.1, h.2 "d" rfl⟩

end DropboxMCP
